import Mathlib

/-!
# libskylark: hash-sketch parameter generation and the edge-list graph reader

A shallow embedding of

* `sketch/hash_transform_data.hpp`: `hash_transform_data_t` (constructors and `build`);
* `examples/community.cpp`: `simple_unweighted_graph_t` (the edge-list reader).

`hash_transform_data_t` derives from `transform_data_t` and samples through
`base::context_t`; neither header is part of the sources at hand, so both are
modelled from the natural-language specification and marked as such.
-/

set_option autoImplicit false

namespace skylark

/-- Error taxonomy of the specification (section 7).  `UnsupportedDistribution`
is listed for completeness: a distribution is represented below by its sampling
function, so a distribution the context cannot sample is not representable. -/
inductive Error where
  | InvalidDimension
  | InvalidCount
  | UnsupportedDistribution
  | DeserializationError
  | DistributionDomainError
  deriving DecidableEq, Repr

namespace base

/-- Modelled from the spec: `base::context_t` (header `base/context.hpp` is missing).
Section 3: a RandomContext is `{seed: integer, engine identity: tag}`, immutable
once created. -/
structure context_t where
  seed : Int
  engine : String
  deriving DecidableEq, Repr

/-- Modelled from the spec: a distribution as the context realises it (the
distribution classes of `utility/randgen.hpp` are missing).  Sections 4.1 and 9:
`sample(seed, globalIndex, distribution) -> value`, the k-th sample being a pure
function of `(seed, k)`. -/
structure distribution_t (α : Type) where
  sample : Int → Nat → α

/-- Modelled from the spec: the sub-range query of section 4.1 (missing from the
sources).  Samples `start, start+1, ..., start+count-1` of the logical sequence;
fails with `InvalidCount` when `count < 0`. -/
def context_t.generate_range {α : Type} (ctx : context_t) (start : Nat) (count : Int)
    (dist : distribution_t α) : Except Error (List α) :=
  if count < 0 then Except.error Error.InvalidCount
  else Except.ok ((List.range count.toNat).map (fun i => dist.sample ctx.seed (start + i)))

/-- Modelled from the spec: `context_t::generate_random_samples_array(count, distribution)`
(missing from the sources).  Section 4.1: `generate(count, distribution)` returns the
first `count` samples of the logical sequence and has no side effect on the context;
the context is returned alongside so that callers thread it as the C++ object. -/
def context_t.generate_random_samples_array {α : Type} (ctx : context_t) (count : Int)
    (dist : distribution_t α) : Except Error (List α × context_t) :=
  match ctx.generate_range 0 count dist with
  | Except.error e => Except.error e
  | Except.ok samples => Except.ok (samples, ctx)

end base

namespace sketch

open base

/-- Modelled from the spec: the template parameter `IdxDistributionType<IndexType>`,
a distribution class constructed from two inclusive bounds `(a, b)`.
`sample a b seed k` is the k-th sample under `seed` of the instance built with
bounds `a` and `b`. -/
structure idx_distribution_type where
  sample : Int → Int → Int → Nat → Int

/-- Modelled from the spec: construction of an index distribution with bounds
`(a, b)`.  Section 7: `DistributionDomainError` for an empty or invalid domain. -/
def idx_distribution_type.construct (I : idx_distribution_type) (a b : Int) :
    Except Error (distribution_t Int) :=
  if b < a then Except.error Error.DistributionDomainError
  else Except.ok ⟨I.sample a b⟩

/-- The contract of an index-distribution policy: an instance built with the
inclusive bounds `a ≤ b` only yields samples in `[a, b]`. -/
def idx_distribution_type.within_bounds (I : idx_distribution_type) : Prop :=
  ∀ (a b seed : Int) (k : Nat), a ≤ b → a ≤ I.sample a b seed k ∧ I.sample a b seed k ≤ b

/-- Modelled from the spec: `transform_data_t` (header `sketch/transform_data.hpp`
is missing).  Section 3, SketchDescriptor: `{N, S, type, context}`. -/
structure transform_data_t where
  _N : Int
  _S : Int
  context : context_t
  type : String
  deriving DecidableEq, Repr

/-- Modelled from the spec: `transform_data_t(N, S, context, type)`.  Section 4.2:
the constructor validates `N > 0`, `S > 0`; section 7: `InvalidDimension` otherwise. -/
def transform_data_t.construct (N S : Int) (context : context_t) (type : String) :
    Except Error transform_data_t :=
  if N ≤ 0 ∨ S ≤ 0 then Except.error Error.InvalidDimension
  else Except.ok ⟨N, S, context, type⟩

/-- Modelled from the spec: `transform_data_t::build()`.  Section 3: building against
a context returns a derived clone and never mutates the stored context. -/
def transform_data_t.build (d : transform_data_t) : context_t :=
  d.context

/-- Modelled from the spec: the serialized description (a `boost::property_tree::ptree`
in the source) with the fields of section 6; an absent field is `none`. -/
structure ptree where
  N : Option Int
  S : Option Int
  type : Option String
  context_seed : Option Int
  context_engine : Option String
  deriving DecidableEq, Repr

/-- Modelled from the spec: `serialize()` of section 4.2, the unbuilt shape plus the
context seed (seed-replay policy), with the optional engine field of section 6. -/
def transform_data_t.serialize (d : transform_data_t) : ptree :=
  ⟨some d._N, some d._S, some d.type, some d.context.seed, some d.context.engine⟩

/-- Modelled from the spec: `transform_data_t(const ptree &json)`.  Section 4.2:
`DeserializationError` when a required field is missing or the type tag is not
recognised by the target family (`recognized`); the shape goes through the
validating constructor. -/
def transform_data_t.from_ptree (recognized : String → Bool) (json : ptree) :
    Except Error transform_data_t :=
  match json.N, json.S, json.type, json.context_seed with
  | some N, some S, some type, some seed =>
    if recognized type then
      transform_data_t.construct N S ⟨seed, json.context_engine.getD ""⟩ type
    else Except.error Error.DeserializationError
  | _, _, _, _ => Except.error Error.DeserializationError

/-- The struct `hash_transform_data_t<IndexType, ValueType, IdxDistributionType,
ValueDistribution>`: a `transform_data_t` plus the two precomputed arrays.
`IndexType` is an integer type (the index distribution is built from `0` and
`_S - 1`); `ValueType` is `α`. -/
structure hash_transform_data_t (α : Type) extends transform_data_t where
  row_idx : List Int
  row_value : List α
  deriving DecidableEq, Repr

/-- The constructor `hash_transform_data_t(int N, int S, context, type)`: forwards to
the base constructor, the body is empty, the arrays start empty. -/
def hash_transform_data_t.construct {α : Type} (N S : Int) (context : context_t)
    (type : String) : Except Error (hash_transform_data_t α) :=
  match transform_data_t.construct N S context type with
  | Except.error e => Except.error e
  | Except.ok base => Except.ok ⟨base, [], []⟩

/-- The constructor `hash_transform_data_t(const ptree &json)`: forwards to the base
constructor, the body is empty. -/
def hash_transform_data_t.from_ptree {α : Type} (recognized : String → Bool) (json : ptree) :
    Except Error (hash_transform_data_t α) :=
  match transform_data_t.from_ptree recognized json with
  | Except.error e => Except.error e
  | Except.ok base => Except.ok ⟨base, [], []⟩

/-- The method `hash_transform_data_t::build()`.  `I` and `V` are the template
parameters `IdxDistributionType` and `ValueDistribution` (the latter default
constructed).  Returns the descriptor with both arrays assigned, and `tmp`. -/
def hash_transform_data_t.build {α : Type} (I : idx_distribution_type) (V : distribution_t α)
    (d : hash_transform_data_t α) : Except Error (hash_transform_data_t α × context_t) :=
  let tmp := d.totransform_data_t.build
  match I.construct 0 (d._S - 1) with
  | Except.error e => Except.error e
  | Except.ok row_idx_distribution =>
    let row_value_distribution := V
    match tmp.generate_random_samples_array d._N row_idx_distribution with
    | Except.error e => Except.error e
    | Except.ok (row_idx, tmp1) =>
      match tmp1.generate_random_samples_array d._N row_value_distribution with
      | Except.error e => Except.error e
      | Except.ok (row_value, tmp2) =>
        Except.ok (⟨d.totransform_data_t, row_idx, row_value⟩, tmp2)

/-- Modelled from the spec: the slice of a build owned by one process (section 5),
the coordinates `[a, b)` of `row_idx` and `row_value`, generated from the same
context and distributions at the global offsets `a, ..., b-1`. -/
def hash_transform_data_t.build_range {α : Type} (I : idx_distribution_type)
    (V : distribution_t α) (d : hash_transform_data_t α) (a b : Nat) :
    Except Error (List Int × List α) :=
  let tmp := d.totransform_data_t.build
  match I.construct 0 (d._S - 1) with
  | Except.error e => Except.error e
  | Except.ok row_idx_distribution =>
    match tmp.generate_range a ((b : Int) - (a : Int)) row_idx_distribution with
    | Except.error e => Except.error e
    | Except.ok idx =>
      match tmp.generate_range a ((b : Int) - (a : Int)) V with
      | Except.error e => Except.error e
      | Except.ok val => Except.ok (idx, val)

/-- Modelled from the spec: a uniform-over-range index policy (section 2, item 4),
a fixed integer mix of `(seed, k)` reduced into `[a, b]`. -/
def uniform_index : idx_distribution_type :=
  ⟨fun a b seed k => a + (seed * 7 + (k : Int) * 5 + 3) % (b - a + 1)⟩

/-- Modelled from the spec: the symmetric two-valued policy producing `+1` / `-1`
(section 4.3). -/
def symmetric_sign : distribution_t Int :=
  ⟨fun seed k => if (seed * 3 + (k : Int) * (k : Int) + 1) % 2 = 0 then 1 else -1⟩

/-- The arrays `build` assigns, in closed form. -/
def built_row_idx {α : Type} (I : idx_distribution_type) (d : hash_transform_data_t α) :
    List Int :=
  (List.range d._N.toNat).map (fun i => I.sample 0 (d._S - 1) d.context.seed (0 + i))

/-- The values `build` assigns, in closed form. -/
def built_row_value {α : Type} (V : distribution_t α) (d : hash_transform_data_t α) :
    List α :=
  (List.range d._N.toNat).map (fun i => V.sample d.context.seed (0 + i))

end sketch

/-! ## The edge-list reader of `examples/community.cpp` -/

namespace examples

/-- The C locale `isspace`: the blank and the characters `\t \n \v \f \r`. -/
def isspace (c : Char) : Bool :=
  c.toNat = 32 || (9 ≤ c.toNat && c.toNat ≤ 13)

/-- Decimal digits `0` to `9`. -/
def isdigit (c : Char) : Bool :=
  48 ≤ c.toNat && c.toNat ≤ 57

/-- Value of a run of decimal digits. -/
def digits_value (ds : List Char) : Nat :=
  ds.foldl (fun acc c => 10 * acc + (c.toNat - 48)) 0

/-- A `std::istringstream`: the unread characters and whether the stream is still
`good()` (neither `failbit` nor `eofbit` set). -/
structure istringstream where
  buf : List Char
  good : Bool
  deriving DecidableEq, Repr

/-- The standard formatted extraction `stream >> x` for `int x` (C++11 rules), where
`old` is the value `x` holds before the call.  A stream that is not good, or that
runs out while skipping white space, leaves `x` untouched; a token without digits
stores `0`; a value outside the range of `int` stores the nearest bound; each of
these sets `failbit`.  A number that ends the buffer sets `eofbit`. -/
def istringstream.extract_int (s : istringstream) (old : Int) : istringstream × Int :=
  if s.good = false then (⟨s.buf, false⟩, old)
  else
    match s.buf.dropWhile isspace with
    | [] => (⟨[], false⟩, old)
    | c :: rest =>
      let negative := decide (c = '-')
      let body := if c = '-' ∨ c = '+' then rest else c :: rest
      let ds := body.takeWhile isdigit
      let remaining := body.dropWhile isdigit
      if ds = [] then (⟨remaining, false⟩, 0)
      else
        let x : Int := if negative then -(digits_value ds : Int) else (digits_value ds : Int)
        if x < -2147483648 then (⟨remaining, false⟩, -2147483648)
        else if 2147483647 < x then (⟨remaining, false⟩, 2147483647)
        else (⟨remaining, !remaining.isEmpty⟩, x)

/-- The lines the reading loop gets to process: `getline(in, line)` followed by
`if (in.eof()) break;` hands over every newline-terminated line of the file; a
final stretch without a newline sets `eofbit` and is dropped by the `break`.
`cur` holds the characters of the current line, last one first. -/
def read_lines : List Char → List Char → List (List Char)
  | [], _ => []
  | c :: rest, cur =>
    if c = '\n' then cur.reverse :: read_lines rest [] else read_lines rest (c :: cur)

/-- The statement `_nodemap[k].push_back(x)` on the map held as an association list
with one entry per key: `operator[]` creates an empty vector for a new key. -/
def nodemap_push_back : List (Int × List Int) → Int → Int → List (Int × List Int)
  | [], k, x => [(k, [x])]
  | (k1, adj) :: rest, k, x =>
    if k1 = k then (k1, adj ++ [x]) :: rest else (k1, adj) :: nodemap_push_back rest k x

/-- The variables live across iterations of the reading loop. -/
structure reader_state where
  u : Int
  v : Int
  added : List (Int × Int)
  _nodemap : List (Int × List Int)
  _num_edges : Nat
  deriving DecidableEq, Repr

/-- The test `line[0] == '#'` (on an empty line `line[0]` is the null character). -/
def is_comment (line : List Char) : Bool :=
  line.head? = some '#'

/-- The two extractions `tokenstream >> u; tokenstream >> v;` on a fresh stream over
`line`, from the values `u` and `v` hold before. -/
def parse_line (u v : Int) (line : List Char) : Int × Int :=
  let r1 := istringstream.extract_int ⟨line, true⟩ u
  let r2 := r1.1.extract_int v
  (r1.2, r2.2)

/-- One iteration of the `while (true)` loop on a line that was read before `eof`. -/
def reader_step (st : reader_state) (line : List Char) : reader_state :=
  if is_comment line then st
  else
    let uv := parse_line st.u st.v line
    if uv.1 = uv.2 then ⟨uv.1, uv.2, st.added, st._nodemap, st._num_edges⟩
    else if uv ∈ st.added then ⟨uv.1, uv.2, st.added, st._nodemap, st._num_edges⟩
    else
      ⟨uv.1, uv.2, uv :: st.added,
        nodemap_push_back (nodemap_push_back st._nodemap uv.1 uv.2) uv.2 uv.1,
        st._num_edges + 2⟩

/-- The struct `simple_unweighted_graph_t`. -/
structure simple_unweighted_graph_t where
  _nodemap : List (Int × List Int)
  _num_edges : Nat
  deriving DecidableEq, Repr

/-- The constructor `simple_unweighted_graph_t(gf)` on a file that opens, `gf` being
its contents; `u0` and `v0` are the values the uninitialised locals `u` and `v`
happen to hold. -/
def simple_unweighted_graph_t.construct (u0 v0 : Int) (gf : List Char) :
    simple_unweighted_graph_t :=
  let st := (read_lines gf []).foldl reader_step ⟨u0, v0, [], [], 0⟩
  ⟨st._nodemap, st._num_edges⟩

/-- The method `num_vertices()`. -/
def simple_unweighted_graph_t.num_vertices (G : simple_unweighted_graph_t) : Nat :=
  G._nodemap.length

/-- The method `num_edges()`. -/
def simple_unweighted_graph_t.num_edges (G : simple_unweighted_graph_t) : Nat :=
  G._num_edges

/-- The vector `_nodemap.at(vertex)`, the range of `adjanct_begin` / `adjanct_end`;
`none` where `at` throws. -/
def simple_unweighted_graph_t.adjanct (G : simple_unweighted_graph_t) (vertex : Int) :
    Option (List Int) :=
  (G._nodemap.find? (fun p => p.1 = vertex)).map Prod.snd

/-- The method `degree(vertex)`; `none` where `at` throws. -/
def simple_unweighted_graph_t.degree (G : simple_unweighted_graph_t) (vertex : Int) :
    Option Nat :=
  (G.adjanct vertex).map List.length

/-- The vertices of the graph: the keys of `_nodemap`. -/
def simple_unweighted_graph_t.vertices (G : simple_unweighted_graph_t) : List Int :=
  G._nodemap.map Prod.fst

/-- The pairs `(u, v)` the loop holds after each line that is not a comment, in
file order. -/
def parsed_pairs (u v : Int) : List (List Char) → List (Int × Int)
  | [] => []
  | line :: rest =>
    if is_comment line then parsed_pairs u v rest
    else (parse_line u v line) :: parsed_pairs (parse_line u v line).1 (parse_line u v line).2 rest

/-- Number of accepted lines, following the wording of the claim: a line counts when
its pair is not a self-loop and does not repeat the ordered pair of an earlier
line (`seen`). -/
def accepted_count (seen : List (Int × Int)) : List (Int × Int) → Nat
  | [] => 0
  | p :: rest =>
    (if p.1 ≠ p.2 ∧ p ∉ seen then 1 else 0) + accepted_count (p :: seen) rest

/-- Total length of the adjacency vectors of a map. -/
def total_degree (m : List (Int × List Int)) : Nat :=
  (m.map (fun p => p.2.length)).sum

/-- The invariant of the reading loop. -/
def reader_inv (st : reader_state) : Prop :=
  st._num_edges = total_degree st._nodemap ∧ st._num_edges = 2 * st.added.length ∧
    (st._nodemap.map Prod.fst).Nodup

/-- Number of accepted lines of a file. -/
def accepted_lines (u0 v0 : Int) (gf : List Char) : Nat :=
  accepted_count [] (parsed_pairs u0 v0 (read_lines gf []))

end examples

namespace sketch

open base

/-- The concrete scenario of the specification: `N = 6`, `S = 3`, seed `42`. -/
def scenario : hash_transform_data_t Int :=
  ⟨⟨6, 3, ⟨42, "mt"⟩, "hash"⟩, [], []⟩

/-! ## Facts about the sketch model -/

theorem generate_range_ok {α : Type} (ctx : context_t) (start : Nat) (count : Int)
    (dist : distribution_t α) (h : 0 ≤ count) :
    ctx.generate_range start count dist =
      Except.ok ((List.range count.toNat).map (fun i => dist.sample ctx.seed (start + i))) := by
  unfold context_t.generate_range
  rw [if_neg (not_lt.mpr h)]

theorem build_ok {α : Type} (I : idx_distribution_type) (V : distribution_t α)
    (d : hash_transform_data_t α) (hN : 0 ≤ d._N) (hS : 0 < d._S) :
    d.build I V =
      Except.ok (⟨d.totransform_data_t, built_row_idx I d, built_row_value V d⟩, d.context) := by
  have hb : ¬ (d._S - 1 < 0) := by omega
  simp only [hash_transform_data_t.build, idx_distribution_type.construct, if_neg hb,
    context_t.generate_random_samples_array, transform_data_t.build,
    generate_range_ok _ _ _ _ hN, built_row_idx, built_row_value]

theorem built_row_idx_length {α : Type} (I : idx_distribution_type)
    (d : hash_transform_data_t α) : (built_row_idx I d).length = d._N.toNat := by
  simp [built_row_idx]

theorem built_row_value_length {α : Type} (V : distribution_t α)
    (d : hash_transform_data_t α) : (built_row_value V d).length = d._N.toNat := by
  simp [built_row_value]

theorem construct_ok {α : Type} (N S : Int) (context : context_t) (type : String)
    (hN : 0 < N) (hS : 0 < S) :
    (hash_transform_data_t.construct N S context type : Except Error (hash_transform_data_t α)) =
      Except.ok ⟨⟨N, S, context, type⟩, [], []⟩ := by
  have h : ¬ (N ≤ 0 ∨ S ≤ 0) := by omega
  simp only [hash_transform_data_t.construct, transform_data_t.construct, if_neg h]

theorem construct_dims {α : Type} (N S : Int) (context : context_t) (type : String)
    (d : hash_transform_data_t α)
    (h : hash_transform_data_t.construct N S context type = Except.ok d) :
    0 < d._N ∧ 0 < d._S ∧ d.row_idx = [] ∧ d.row_value = [] := by
  by_cases hd : N ≤ 0 ∨ S ≤ 0
  · simp [hash_transform_data_t.construct, transform_data_t.construct, hd] at h
  · simp only [hash_transform_data_t.construct, transform_data_t.construct, if_neg hd,
      Except.ok.injEq] at h
    subst h
    refine ⟨?_, ?_, rfl, rfl⟩
    · show 0 < N; omega
    · show 0 < S; omega

theorem from_ptree_dims {α : Type} (recognized : String → Bool) (json : ptree)
    (d : hash_transform_data_t α)
    (h : hash_transform_data_t.from_ptree recognized json = Except.ok d) :
    0 < d._N ∧ 0 < d._S := by
  obtain ⟨jN, jS, jt, js, je⟩ := json
  cases jN <;> cases jS <;> cases jt <;> cases js <;>
    simp only [hash_transform_data_t.from_ptree, transform_data_t.from_ptree] at h <;>
    try (exact absurd h (by simp))
  rename_i N S type seed
  by_cases hr : recognized type = true
  · by_cases hd : N ≤ 0 ∨ S ≤ 0
    · simp [hr, transform_data_t.construct, hd] at h
    · simp only [hr, if_true, transform_data_t.construct, if_neg hd, Except.ok.injEq] at h
      subst h
      refine ⟨?_, ?_⟩
      · show 0 < N; omega
      · show 0 < S; omega
  · simp [hr] at h

/-- C1 (domain bound): for a descriptor with `N > 0` and `S > 0` and an index policy
that respects its inclusive bounds, `build` succeeds and every `row_idx[i]`,
`0 ≤ i < N`, exists and satisfies `0 ≤ row_idx[i] < S`. -/
theorem C1_row_idx_domain {α : Type} (I : idx_distribution_type) (V : distribution_t α)
    (d : hash_transform_data_t α) (hN : 0 < d._N) (hS : 0 < d._S) (hI : I.within_bounds) :
    ∃ r tmp, d.build I V = Except.ok (r, tmp) ∧
      ∀ i : Nat, (i : Int) < d._N → ∃ x, r.row_idx.get? i = some x ∧ 0 ≤ x ∧ x < d._S := by
  refine ⟨_, _, build_ok I V d (le_of_lt hN) hS, ?_⟩
  intro i hi
  have hlt : i < d._N.toNat := by omega
  have hb := hI 0 (d._S - 1) d.context.seed (0 + i) (by omega)
  refine ⟨I.sample 0 (d._S - 1) d.context.seed (0 + i), ?_, hb.1, by omega⟩
  simp [built_row_idx, List.getElem?_map, List.getElem?_range hlt]

/-- C2 (length invariant): for a descriptor with dimensions `(N, S)`, `N > 0` and
`S > 0`, `build` succeeds and leaves `row_idx` and `row_value` of length exactly `N`. -/
theorem C2_lengths {α : Type} (I : idx_distribution_type) (V : distribution_t α)
    (d : hash_transform_data_t α) (hN : 0 < d._N) (hS : 0 < d._S) :
    ∃ r tmp, d.build I V = Except.ok (r, tmp) ∧
      (r.row_idx.length : Int) = d._N ∧ (r.row_value.length : Int) = d._N ∧
      r.row_idx.length = r.row_value.length := by
  refine ⟨_, _, build_ok I V d (le_of_lt hN) hS, ?_, ?_, ?_⟩
  · simp only [built_row_idx_length]; omega
  · simp only [built_row_value_length]; omega
  · simp only [built_row_idx_length, built_row_value_length]

theorem build_range_ok {α : Type} (I : idx_distribution_type) (V : distribution_t α)
    (d : hash_transform_data_t α) (a b : Nat) (hab : a ≤ b) (hS : 0 < d._S) :
    d.build_range I V a b =
      Except.ok ((List.range (b - a)).map (fun i => I.sample 0 (d._S - 1) d.context.seed (a + i)),
        (List.range (b - a)).map (fun i => V.sample d.context.seed (a + i))) := by
  have hb : ¬ (d._S - 1 < 0) := by omega
  have hc : (0 : Int) ≤ (b : Int) - (a : Int) := by omega
  have ht : ((b : Int) - (a : Int)).toNat = b - a := by omega
  simp only [hash_transform_data_t.build_range, idx_distribution_type.construct, if_neg hb,
    transform_data_t.build, generate_range_ok _ _ _ _ hc, ht]

theorem map_range_split {β : Type} (f : Nat → β) (k n : Nat) (hk : k ≤ n) :
    (List.range n).map (fun i => f (0 + i)) =
      (List.range (k - 0)).map (fun i => f (0 + i)) ++
        (List.range (n - k)).map (fun i => f (k + i)) := by
  have hn : n = k + (n - k) := by omega
  conv_lhs => rw [hn, List.range_add]
  simp [List.map_append, List.map_map, Function.comp_def]

/-- C3 (partition independence): for a descriptor with `N > 0`, `S > 0` and a split
point `0 ≤ k ≤ N`, the slices `[0, k)` and `[k, N)` generated separately from the
same context at their global offsets concatenate to the `row_idx` and `row_value`
of the single `build` over all `N` coordinates. -/
theorem C3_partition_independence {α : Type} (I : idx_distribution_type)
    (V : distribution_t α) (d : hash_transform_data_t α) (hN : 0 < d._N) (hS : 0 < d._S)
    (k : Nat) (hk : (k : Int) ≤ d._N) :
    ∃ r tmp lo hi, d.build I V = Except.ok (r, tmp) ∧
      d.build_range I V 0 k = Except.ok lo ∧
      d.build_range I V k d._N.toNat = Except.ok hi ∧
      r.row_idx = lo.1 ++ hi.1 ∧ r.row_value = lo.2 ++ hi.2 := by
  have hkn : k ≤ d._N.toNat := by omega
  refine ⟨_, _, _, _, build_ok I V d (le_of_lt hN) hS,
    build_range_ok I V d 0 k (Nat.zero_le k) hS,
    build_range_ok I V d k d._N.toNat hkn hS, ?_, ?_⟩
  · exact map_range_split (fun i => I.sample 0 (d._S - 1) d.context.seed i) k _ hkn
  · exact map_range_split (fun i => V.sample d.context.seed i) k _ hkn

/-- C4 (idempotent build): for a descriptor with `N > 0` and `S > 0`, `build` succeeds,
and a second `build` on the built descriptor succeeds with the same descriptor
(so the same `row_idx` and `row_value`) and the same returned context. -/
theorem C4_build_idempotent {α : Type} (I : idx_distribution_type) (V : distribution_t α)
    (d : hash_transform_data_t α) (hN : 0 < d._N) (hS : 0 < d._S) :
    ∃ r tmp, d.build I V = Except.ok (r, tmp) ∧
      ∃ r2 tmp2, r.build I V = Except.ok (r2, tmp2) ∧
        r2.row_idx = r.row_idx ∧ r2.row_value = r.row_value ∧ tmp2 = tmp := by
  refine ⟨_, _, build_ok I V d (le_of_lt hN) hS, _, _,
    build_ok I V _ (le_of_lt hN) hS, rfl, rfl, rfl⟩

/-- C5 (invalid dimensions): for `N ≤ 0` or `S ≤ 0` the constructor
`hash_transform_data_t(N, S, context, type)` fails with `InvalidDimension`; the
result carries no descriptor. -/
theorem C5_invalid_dimension {α : Type} (N S : Int) (context : context_t) (type : String)
    (h : N ≤ 0 ∨ S ≤ 0) :
    (hash_transform_data_t.construct N S context type : Except Error (hash_transform_data_t α)) =
      Except.error Error.InvalidDimension := by
  simp only [hash_transform_data_t.construct, transform_data_t.construct, if_pos h]

/-- C6 (determinism): for valid `(N, S, type)` and two contexts with the same seed,
the two descriptors are constructed, both builds succeed, and their `row_idx` and
`row_value` are identical. -/
theorem C6_determinism {α : Type} (I : idx_distribution_type) (V : distribution_t α)
    (N S : Int) (c1 c2 : context_t) (type : String) (hN : 0 < N) (hS : 0 < S)
    (hseed : c1.seed = c2.seed) :
    ∃ (d1 d2 r1 r2 : hash_transform_data_t α) (t1 t2 : context_t),
      hash_transform_data_t.construct N S c1 type = Except.ok d1 ∧
      hash_transform_data_t.construct N S c2 type = Except.ok d2 ∧
      d1.build I V = Except.ok (r1, t1) ∧ d2.build I V = Except.ok (r2, t2) ∧
      r1.row_idx = r2.row_idx ∧ r1.row_value = r2.row_value := by
  refine ⟨_, _, _, _, _, _, construct_ok N S c1 type hN hS, construct_ok N S c2 type hN hS,
    build_ok I V _ (le_of_lt hN) hS, build_ok I V _ (le_of_lt hN) hS, ?_, ?_⟩
  · simp only [built_row_idx, hseed]
  · simp only [built_row_value, hseed]

/-- C7 (round trip): for a descriptor `x` with `N > 0`, `S > 0` and a type tag of the
target family, the property-tree constructor applied to `serialize(x)` yields a
descriptor whose build succeeds with `row_idx` and `row_value` equal to those of
building `x` directly. -/
theorem C7_round_trip {α : Type} (I : idx_distribution_type) (V : distribution_t α)
    (recognized : String → Bool) (x : hash_transform_data_t α)
    (hN : 0 < x._N) (hS : 0 < x._S) (hT : recognized x.type = true) :
    ∃ (y ry rx : hash_transform_data_t α) (ty tx : context_t),
      hash_transform_data_t.from_ptree recognized x.totransform_data_t.serialize = Except.ok y ∧
      y.build I V = Except.ok (ry, ty) ∧ x.build I V = Except.ok (rx, tx) ∧
      ry.row_idx = rx.row_idx ∧ ry.row_value = rx.row_value := by
  have h : ¬ (x._N ≤ 0 ∨ x._S ≤ 0) := by omega
  have hy : (hash_transform_data_t.from_ptree recognized x.totransform_data_t.serialize :
      Except Error (hash_transform_data_t α)) =
      Except.ok ⟨⟨x._N, x._S, ⟨x.context.seed, x.context.engine⟩, x.type⟩, [], []⟩ := by
    simp only [hash_transform_data_t.from_ptree, transform_data_t.from_ptree,
      transform_data_t.serialize, hT, if_true, transform_data_t.construct, if_neg h,
      Option.getD_some]
  exact ⟨_, _, _, _, _, hy, build_ok I V _ (le_of_lt hN) hS, build_ok I V x (le_of_lt hN) hS,
    rfl, rfl⟩

/-- C8 (frame of build): for a descriptor with `N > 0` and `S > 0`, `build` succeeds;
`N`, `S`, the type tag and the stored context are unchanged, the returned context
is the derived copy `tmp` on which both arrays were sampled, and the stored context
yields the same samples after the build as before it. -/
theorem C8_build_frame {α : Type} (I : idx_distribution_type) (V : distribution_t α)
    (d : hash_transform_data_t α) (hN : 0 < d._N) (hS : 0 < d._S) :
    ∃ r tmp, d.build I V = Except.ok (r, tmp) ∧
      r._N = d._N ∧ r._S = d._S ∧ r.type = d.type ∧ r.context = d.context ∧
      tmp = d.totransform_data_t.build ∧
      (∃ dist, I.construct 0 (d._S - 1) = Except.ok dist ∧
        d.totransform_data_t.build.generate_random_samples_array d._N dist =
          Except.ok (r.row_idx, tmp)) ∧
      d.totransform_data_t.build.generate_random_samples_array d._N V =
        Except.ok (r.row_value, tmp) ∧
      ∀ (β : Type) (count : Int) (dist : distribution_t β),
        r.context.generate_random_samples_array count dist =
          d.context.generate_random_samples_array count dist := by
  have hb : ¬ (d._S - 1 < 0) := by omega
  refine ⟨_, _, build_ok I V d (le_of_lt hN) hS, rfl, rfl, rfl, rfl, rfl,
    ⟨⟨I.sample 0 (d._S - 1)⟩, ?_, ?_⟩, ?_, fun _ _ _ => rfl⟩
  · simp only [idx_distribution_type.construct, if_neg hb]
  · simp only [context_t.generate_random_samples_array, transform_data_t.build,
      generate_range_ok _ _ _ _ (le_of_lt hN), built_row_idx]
  · simp only [context_t.generate_random_samples_array, transform_data_t.build,
      generate_range_ok _ _ _ _ (le_of_lt hN), built_row_value]

theorem uniform_index_within_bounds : uniform_index.within_bounds := by
  intro a b seed k hab
  have hpos : 0 < b - a + 1 := by omega
  have h0 := Int.emod_nonneg (seed * 7 + (k : Int) * 5 + 3) (ne_of_gt hpos)
  have h1 := Int.emod_lt_of_pos (seed * 7 + (k : Int) * 5 + 3) hpos
  simp only [uniform_index]
  constructor <;> omega

theorem C1_row_idx_domain_witness :
    (0 : Int) < scenario._N ∧ (0 : Int) < scenario._S ∧
    ∃ r tmp, scenario.build uniform_index symmetric_sign = Except.ok (r, tmp) ∧
      ∀ i : Nat, (i : Int) < scenario._N →
        ∃ x, r.row_idx.get? i = some x ∧ 0 ≤ x ∧ x < scenario._S :=
  ⟨by decide, by decide,
    C1_row_idx_domain uniform_index symmetric_sign scenario (by decide) (by decide)
      uniform_index_within_bounds⟩

theorem C2_lengths_witness :
    (0 : Int) < scenario._N ∧ (0 : Int) < scenario._S ∧
    ∃ r tmp, scenario.build uniform_index symmetric_sign = Except.ok (r, tmp) ∧
      (r.row_idx.length : Int) = scenario._N ∧ (r.row_value.length : Int) = scenario._N ∧
      r.row_idx.length = r.row_value.length :=
  ⟨by decide, by decide,
    C2_lengths uniform_index symmetric_sign scenario (by decide) (by decide)⟩

theorem C3_partition_independence_witness :
    ((4 : Nat) : Int) ≤ scenario._N ∧
    ∃ r tmp lo hi, scenario.build uniform_index symmetric_sign = Except.ok (r, tmp) ∧
      scenario.build_range uniform_index symmetric_sign 0 4 = Except.ok lo ∧
      scenario.build_range uniform_index symmetric_sign 4 scenario._N.toNat = Except.ok hi ∧
      r.row_idx = lo.1 ++ hi.1 ∧ r.row_value = lo.2 ++ hi.2 :=
  ⟨by decide,
    C3_partition_independence uniform_index symmetric_sign scenario (by decide) (by decide)
      4 (by decide)⟩

theorem C4_build_idempotent_witness :
    (0 : Int) < scenario._N ∧ (0 : Int) < scenario._S ∧
    ∃ r tmp, scenario.build uniform_index symmetric_sign = Except.ok (r, tmp) ∧
      ∃ r2 tmp2, r.build uniform_index symmetric_sign = Except.ok (r2, tmp2) ∧
        r2.row_idx = r.row_idx ∧ r2.row_value = r.row_value ∧ tmp2 = tmp :=
  ⟨by decide, by decide,
    C4_build_idempotent uniform_index symmetric_sign scenario (by decide) (by decide)⟩

theorem C5_invalid_dimension_witness :
    ((0 : Int) ≤ 0 ∨ (-1 : Int) ≤ 0) ∧
    (hash_transform_data_t.construct 0 (-1) ⟨42, "mt"⟩ "hash" :
      Except Error (hash_transform_data_t Int)) = Except.error Error.InvalidDimension :=
  ⟨by decide, C5_invalid_dimension 0 (-1) ⟨42, "mt"⟩ "hash" (by decide)⟩

theorem C6_determinism_witness :
    (⟨42, "mt"⟩ : context_t).seed = (⟨42, "other"⟩ : context_t).seed ∧
    ∃ (d1 d2 r1 r2 : hash_transform_data_t Int) (t1 t2 : context_t),
      hash_transform_data_t.construct 6 3 ⟨42, "mt"⟩ "hash" = Except.ok d1 ∧
      hash_transform_data_t.construct 6 3 ⟨42, "other"⟩ "hash" = Except.ok d2 ∧
      d1.build uniform_index symmetric_sign = Except.ok (r1, t1) ∧
      d2.build uniform_index symmetric_sign = Except.ok (r2, t2) ∧
      r1.row_idx = r2.row_idx ∧ r1.row_value = r2.row_value :=
  ⟨rfl, C6_determinism uniform_index symmetric_sign 6 3 ⟨42, "mt"⟩ ⟨42, "other"⟩ "hash"
    (by decide) (by decide) rfl⟩

theorem C7_round_trip_witness :
    (fun t => t == "hash") scenario.type = true ∧
    ∃ (y ry rx : hash_transform_data_t Int) (ty tx : context_t),
      hash_transform_data_t.from_ptree (fun t => t == "hash")
        scenario.totransform_data_t.serialize = Except.ok y ∧
      y.build uniform_index symmetric_sign = Except.ok (ry, ty) ∧
      scenario.build uniform_index symmetric_sign = Except.ok (rx, tx) ∧
      ry.row_idx = rx.row_idx ∧ ry.row_value = rx.row_value :=
  ⟨by decide,
    C7_round_trip uniform_index symmetric_sign (fun t => t == "hash") scenario
      (by decide) (by decide) (by decide)⟩

theorem C8_build_frame_witness :
    (0 : Int) < scenario._N ∧ (0 : Int) < scenario._S ∧
    ∃ r tmp, scenario.build uniform_index symmetric_sign = Except.ok (r, tmp) ∧
      r._N = scenario._N ∧ r._S = scenario._S ∧ r.type = scenario.type ∧
      r.context = scenario.context ∧ tmp = scenario.totransform_data_t.build ∧
      (∃ dist, uniform_index.construct 0 (scenario._S - 1) = Except.ok dist ∧
        scenario.totransform_data_t.build.generate_random_samples_array scenario._N dist =
          Except.ok (r.row_idx, tmp)) ∧
      scenario.totransform_data_t.build.generate_random_samples_array scenario._N
          symmetric_sign = Except.ok (r.row_value, tmp) ∧
      ∀ (β : Type) (count : Int) (dist : distribution_t β),
        r.context.generate_random_samples_array count dist =
          scenario.context.generate_random_samples_array count dist :=
  ⟨by decide, by decide,
    C8_build_frame uniform_index symmetric_sign scenario (by decide) (by decide)⟩

end sketch

/-! ## Facts about the edge-list reader -/

namespace examples

theorem total_degree_push_back (m : List (Int × List Int)) (k x : Int) :
    total_degree (nodemap_push_back m k x) = total_degree m + 1 := by
  induction m with
  | nil => simp [nodemap_push_back, total_degree]
  | cons hd tl ih =>
    obtain ⟨k1, adj⟩ := hd
    by_cases h : k1 = k
    · simp only [nodemap_push_back, if_pos h, total_degree, List.map_cons, List.sum_cons,
        List.length_append, List.length_singleton]
      omega
    · simp only [nodemap_push_back, if_neg h, total_degree, List.map_cons, List.sum_cons]
      simp only [total_degree] at ih
      omega

theorem keys_push_back (m : List (Int × List Int)) (k x : Int) :
    (nodemap_push_back m k x).map Prod.fst =
      if k ∈ m.map Prod.fst then m.map Prod.fst else m.map Prod.fst ++ [k] := by
  induction m with
  | nil => simp [nodemap_push_back]
  | cons hd tl ih =>
    obtain ⟨k1, adj⟩ := hd
    by_cases h : k1 = k
    · simp [nodemap_push_back, h]
    · have h2 : ¬ k = k1 := fun e => h e.symm
      simp only [nodemap_push_back, if_neg h, List.map_cons, ih, List.mem_cons, h2, false_or]
      split <;> simp

theorem keys_nodup_push_back (m : List (Int × List Int)) (k x : Int)
    (h : (m.map Prod.fst).Nodup) : ((nodemap_push_back m k x).map Prod.fst).Nodup := by
  rw [keys_push_back]
  split
  · exact h
  · rename_i hk
    rw [List.nodup_append]
    refine ⟨h, List.nodup_singleton k, ?_⟩
    intro a ha hb
    rw [List.mem_singleton] at hb
    exact hk (hb ▸ ha)

theorem degree_sum_eq_total (m : List (Int × List Int)) (h : (m.map Prod.fst).Nodup) :
    ((m.map Prod.fst).map (fun v =>
      (((m.find? (fun p => p.1 = v)).map Prod.snd).map List.length).getD 0)).sum =
      total_degree m := by
  induction m with
  | nil => simp [total_degree]
  | cons hd tl ih =>
    obtain ⟨k1, adj⟩ := hd
    rw [List.map_cons, List.nodup_cons] at h
    have hrest : (tl.map Prod.fst).map (fun v =>
        ((((k1, adj) :: tl).find? (fun p => p.1 = v)).map Prod.snd |>.map List.length).getD 0) =
        (tl.map Prod.fst).map (fun v =>
        (((tl.find? (fun p => p.1 = v)).map Prod.snd).map List.length).getD 0) := by
      apply List.map_congr_left
      intro v hv
      have hne : ¬ k1 = v := fun e => h.1 (e ▸ hv)
      simp [List.find?_cons, hne]
    simp only [List.map_cons, List.sum_cons, total_degree] at *
    rw [hrest, ih h.2]
    simp [List.find?_cons]

theorem reader_step_comment (st : reader_state) (line : List Char)
    (hc : is_comment line = true) : reader_step st line = st := by
  simp [reader_step, hc]

theorem reader_step_self_loop (st : reader_state) (line : List Char)
    (hc : ¬ is_comment line = true)
    (hl : (parse_line st.u st.v line).1 = (parse_line st.u st.v line).2) :
    reader_step st line =
      ⟨(parse_line st.u st.v line).1, (parse_line st.u st.v line).2, st.added, st._nodemap,
        st._num_edges⟩ := by
  simp only [reader_step, if_neg hc, if_pos hl]

theorem reader_step_repeat (st : reader_state) (line : List Char)
    (hc : ¬ is_comment line = true)
    (hl : ¬ (parse_line st.u st.v line).1 = (parse_line st.u st.v line).2)
    (hm : parse_line st.u st.v line ∈ st.added) :
    reader_step st line =
      ⟨(parse_line st.u st.v line).1, (parse_line st.u st.v line).2, st.added, st._nodemap,
        st._num_edges⟩ := by
  simp only [reader_step, if_neg hc, if_neg hl, if_pos hm]

theorem reader_step_accept (st : reader_state) (line : List Char)
    (hc : ¬ is_comment line = true)
    (hl : ¬ (parse_line st.u st.v line).1 = (parse_line st.u st.v line).2)
    (hm : ¬ parse_line st.u st.v line ∈ st.added) :
    reader_step st line =
      ⟨(parse_line st.u st.v line).1, (parse_line st.u st.v line).2,
        parse_line st.u st.v line :: st.added,
        nodemap_push_back
          (nodemap_push_back st._nodemap (parse_line st.u st.v line).1
            (parse_line st.u st.v line).2)
          (parse_line st.u st.v line).2 (parse_line st.u st.v line).1,
        st._num_edges + 2⟩ := by
  simp only [reader_step, if_neg hc, if_neg hl, if_neg hm]

theorem reader_inv_step (st : reader_state) (line : List Char) (h : reader_inv st) :
    reader_inv (reader_step st line) := by
  obtain ⟨h1, h2, h3⟩ := h
  by_cases hc : is_comment line = true
  · rw [reader_step_comment st line hc]; exact ⟨h1, h2, h3⟩
  · by_cases hl : (parse_line st.u st.v line).1 = (parse_line st.u st.v line).2
    · rw [reader_step_self_loop st line hc hl]; exact ⟨h1, h2, h3⟩
    · by_cases hm : parse_line st.u st.v line ∈ st.added
      · rw [reader_step_repeat st line hc hl hm]; exact ⟨h1, h2, h3⟩
      · rw [reader_step_accept st line hc hl hm]
        refine ⟨?_, ?_, ?_⟩
        · simp only [total_degree_push_back]; omega
        · simp only [List.length_cons]; omega
        · exact keys_nodup_push_back _ _ _ (keys_nodup_push_back _ _ _ h3)

theorem reader_inv_foldl (lines : List (List Char)) (st : reader_state) (h : reader_inv st) :
    reader_inv (lines.foldl reader_step st) := by
  induction lines generalizing st with
  | nil => exact h
  | cons line rest ih => exact ih _ (reader_inv_step st line h)

theorem added_length_foldl (lines : List (List Char)) (st : reader_state)
    (seen : List (Int × Int))
    (h : ∀ p : Int × Int, p.1 ≠ p.2 → (p ∈ st.added ↔ p ∈ seen)) :
    (lines.foldl reader_step st).added.length =
      st.added.length + accepted_count seen (parsed_pairs st.u st.v lines) := by
  induction lines generalizing st seen with
  | nil => simp [parsed_pairs, accepted_count]
  | cons line rest ih =>
    rw [List.foldl_cons]
    by_cases hc : is_comment line = true
    · rw [reader_step_comment st line hc, ih st seen h]
      simp [parsed_pairs, hc]
    · have hp : parsed_pairs st.u st.v (line :: rest) =
          parse_line st.u st.v line ::
            parsed_pairs (parse_line st.u st.v line).1 (parse_line st.u st.v line).2 rest := by
        simp [parsed_pairs, hc]
      rw [hp]
      by_cases hl : (parse_line st.u st.v line).1 = (parse_line st.u st.v line).2
      · rw [reader_step_self_loop st line hc hl]
        rw [ih _ (parse_line st.u st.v line :: seen)]
        · simp [accepted_count, hl]
        · intro p hne
          have hpne : ¬ p = parse_line st.u st.v line := fun e => hne (e ▸ hl)
          simp only [List.mem_cons, hpne, false_or]
          exact h p hne
      · by_cases hm : parse_line st.u st.v line ∈ st.added
        · rw [reader_step_repeat st line hc hl hm]
          have hs : parse_line st.u st.v line ∈ seen := (h _ hl).mp hm
          rw [ih _ (parse_line st.u st.v line :: seen)]
          · simp [accepted_count, hs]
          · intro p hne
            simp only [List.mem_cons]
            constructor
            · intro hp1; exact Or.inr ((h p hne).mp hp1)
            · rintro (e | hp1)
              · exact e ▸ hm
              · exact (h p hne).mpr hp1
        · rw [reader_step_accept st line hc hl hm]
          have hs : ¬ parse_line st.u st.v line ∈ seen := fun e => hm ((h _ hl).mpr e)
          rw [ih _ (parse_line st.u st.v line :: seen)]
          · simp only [accepted_count, List.length_cons, ne_eq, hl, not_false_eq_true, hs,
              and_self, if_true]
            omega
          · intro p hne
            simp only [List.mem_cons]
            constructor
            · rintro (e | hp1)
              · exact Or.inl e
              · exact Or.inr ((h p hne).mp hp1)
            · rintro (e | hp1)
              · exact Or.inl e
              · exact Or.inr ((h p hne).mpr hp1)

/-- C9 (handshake invariant): for every file contents, after the constructor
`num_edges()` equals the sum of `degree(v)` over the vertices of the graph (each of
which has a degree), and equals twice the number of accepted lines. -/
theorem C9_handshake (u0 v0 : Int) (gf : List Char) :
    (simple_unweighted_graph_t.construct u0 v0 gf).num_edges =
        (((simple_unweighted_graph_t.construct u0 v0 gf).vertices).map
          (fun v => ((simple_unweighted_graph_t.construct u0 v0 gf).degree v).getD 0)).sum ∧
      (∀ v ∈ (simple_unweighted_graph_t.construct u0 v0 gf).vertices,
        ∃ n, (simple_unweighted_graph_t.construct u0 v0 gf).degree v = some n) ∧
      (simple_unweighted_graph_t.construct u0 v0 gf).num_edges =
        2 * accepted_lines u0 v0 gf := by
  have hinit : reader_inv ⟨u0, v0, [], [], 0⟩ := by
    refine ⟨?_, ?_, ?_⟩ <;> simp [total_degree]
  obtain ⟨h1, h2, h3⟩ := reader_inv_foldl (read_lines gf []) _ hinit
  have hlen := added_length_foldl (read_lines gf []) ⟨u0, v0, [], [], 0⟩ []
    (fun _ _ => Iff.rfl)
  refine ⟨?_, ?_, ?_⟩
  · simp only [simple_unweighted_graph_t.construct, simple_unweighted_graph_t.num_edges,
      simple_unweighted_graph_t.vertices, simple_unweighted_graph_t.degree,
      simple_unweighted_graph_t.adjanct]
    rw [degree_sum_eq_total _ h3]
    exact h1
  · intro v hv
    simp only [simple_unweighted_graph_t.construct, simple_unweighted_graph_t.vertices,
      simple_unweighted_graph_t.degree, simple_unweighted_graph_t.adjanct, List.mem_map] at hv ⊢
    obtain ⟨p, hp, hpv⟩ := hv
    cases hf : List.find? (fun q : Int × List Int => decide (q.1 = v))
        (List.foldl reader_step ⟨u0, v0, [], [], 0⟩ (read_lines gf []))._nodemap with
    | none =>
      rw [List.find?_eq_none] at hf
      exact absurd (by simpa using hpv) (hf p hp)
    | some q => exact ⟨q.2.length, rfl⟩
  · simp only [simple_unweighted_graph_t.construct, simple_unweighted_graph_t.num_edges,
      accepted_lines]
    rw [h2, hlen]
    simp

theorem no_self_push_back (m : List (Int × List Int)) (k x : Int) (hkx : k ≠ x)
    (h : ∀ p ∈ m, p.1 ∉ p.2) : ∀ p ∈ nodemap_push_back m k x, p.1 ∉ p.2 := by
  induction m with
  | nil =>
    intro p hp
    simp only [nodemap_push_back, List.mem_singleton] at hp
    subst hp
    simpa using hkx
  | cons hd tl ih =>
    obtain ⟨k1, adj⟩ := hd
    have hhd := h (k1, adj) (List.mem_cons_self _ _)
    have htl : ∀ p ∈ tl, p.1 ∉ p.2 := fun p hp => h p (List.mem_cons_of_mem _ hp)
    intro p hp
    by_cases hk : k1 = k
    · simp only [nodemap_push_back, if_pos hk, List.mem_cons] at hp
      rcases hp with e | hp
      · subst e
        simp only [List.mem_append, List.mem_singleton, not_or]
        exact ⟨hhd, fun e => hkx (hk ▸ e)⟩
      · exact htl p hp
    · simp only [nodemap_push_back, if_neg hk, List.mem_cons] at hp
      rcases hp with e | hp
      · subst e; exact hhd
      · exact ih htl p hp

theorem no_self_step (st : reader_state) (line : List Char)
    (h : ∀ p ∈ st._nodemap, p.1 ∉ p.2) : ∀ p ∈ (reader_step st line)._nodemap, p.1 ∉ p.2 := by
  by_cases hc : is_comment line = true
  · rw [reader_step_comment st line hc]; exact h
  · by_cases hl : (parse_line st.u st.v line).1 = (parse_line st.u st.v line).2
    · rw [reader_step_self_loop st line hc hl]; exact h
    · by_cases hm : parse_line st.u st.v line ∈ st.added
      · rw [reader_step_repeat st line hc hl hm]; exact h
      · rw [reader_step_accept st line hc hl hm]
        exact no_self_push_back _ _ _ (fun e => hl e.symm) (no_self_push_back _ _ _ hl h)

theorem no_self_foldl (lines : List (List Char)) (st : reader_state)
    (h : ∀ p ∈ st._nodemap, p.1 ∉ p.2) :
    ∀ p ∈ (lines.foldl reader_step st)._nodemap, p.1 ∉ p.2 := by
  induction lines generalizing st with
  | nil => exact h
  | cons line rest ih => exact ih _ (no_self_step st line h)

/-- No adjacency list of the graph built by the constructor contains its own vertex:
the part of simplicity the `u == v` guard secures, on every input. -/
theorem adjanct_no_self (u0 v0 : Int) (gf : List Char) (u : Int) (adj : List Int)
    (h : (simple_unweighted_graph_t.construct u0 v0 gf).adjanct u = some adj) : u ∉ adj := by
  simp only [simple_unweighted_graph_t.construct, simple_unweighted_graph_t.adjanct] at h
  cases hp : List.find? (fun q : Int × List Int => decide (q.1 = u))
      (List.foldl reader_step ⟨u0, v0, [], [], 0⟩ (read_lines gf []))._nodemap with
  | none => rw [hp] at h; exact absurd h (by simp)
  | some p =>
    rw [hp] at h
    simp only [Option.map_some', Option.some.injEq] at h
    subst h
    have hmem := List.mem_of_find?_eq_some hp
    have hkey : p.1 = u := by simpa using List.find?_some hp
    have := no_self_foldl (read_lines gf []) ⟨u0, v0, [], [], 0⟩ (by simp) p hmem
    exact hkey ▸ this

/-- C10 (failing input): on the file `1 2⏎2 1⏎`, which lists one undirected edge in
both orientations, the adjacency list of vertex `1` is `[2, 2]` and that of vertex
`2` is `[1, 1]`: the neighbour occurs twice, and `num_edges()` is `4`. -/
theorem C10_both_orientations_duplicate :
    (simple_unweighted_graph_t.construct 0 0 "1 2\n2 1\n".toList).adjanct 1 = some [2, 2] ∧
    (simple_unweighted_graph_t.construct 0 0 "1 2\n2 1\n".toList).adjanct 2 = some [1, 1] ∧
    (simple_unweighted_graph_t.construct 0 0 "1 2\n2 1\n".toList).num_edges = 4 ∧
    ¬ ([2, 2] : List Int).Nodup := by
  refine ⟨by decide, by decide, by decide, by decide⟩

end examples

end skylark
